import Mathlib

/-!
Verification of the cluster topology discovery and quorum-based health
evaluation engine of `Scripts/postgresql_server.py` (class
`PostgresqlServer`), against its natural-language specification.

The relevant parts of the Python source are shallowly embedded below:
pure data flow becomes Lean functions, the raw JSON payloads become
explicit structures with `Option` fields for possibly-missing keys, and
code that can raise a Python exception (`TypeError` from subtracting
`None`, `IndexError` from indexing a too-short list) returns `Except`.
Python integer log positions and timelines are byte offsets / failover
counters, hence modelled as `Option Nat` (absent key or `None` value is
`none`).  The `None < int` comparison that the source performs in the
synchronous-replica check is modelled with the CPython 2 ordering (the
code base is Python 2 era: `None` sorts below every integer); the claims
proved below do not depend on that choice.  Float arithmetic in the lag
computation is exact over `Rat` for the values the code manipulates.
-/

namespace PgClusterModel

/-- Status codes for listing nodes, from the class attributes
`HEALTHY = 0`, `DEGRADED = 1`, `DOWN = 2`; the code only ever combines
them with `max`. -/
def HEALTHY : ℕ := 0

/-- Status code `DEGRADED = 1`. -/
def DEGRADED : ℕ := 1

/-- Status code `DOWN = 2`. -/
def DOWN : ℕ := 2

/-- One entry of the `replication` list reported by the HA agent of the
primary: `{client_addr, sync_state}`. -/
structure RepEntry where
  client_addr : String
  sync_state : String
deriving DecidableEq

/-- The JSON payload returned by the HA-agent status endpoint
(`_get_raw_node_status(address, 'DB')`): fields `state`, `timeline`,
`xlog.location`, `xlog.replayed_location` and `replication`.  A missing
key maps to `none` / `[]`.  An entirely empty payload (unreachable node)
is represented by `Option RawAgentStatus` being `none` at the use
sites. -/
structure RawAgentStatus where
  state : Option String
  timeline : Option ℕ
  xlog_location : Option ℕ
  xlog_replayed_location : Option ℕ
  replication : List RepEntry
deriving DecidableEq

/-- The node-status record built by `_get_node_status`: keys `node_ip`,
`alive`, `errors`, `raw_status`, `log_location`, `state`, `timeline`,
`etcd_state`.  The keys `log_location` and `timeline` are absent from
the Python dict when the agent payload is empty; the evaluator reads
them with `.get`, so absence and a `None` value coincide and both are
`none` here. -/
structure Node where
  node_ip : Option String
  alive : Bool
  errors : List String
  raw_status : Option RawAgentStatus
  log_location : Option ℕ
  state : String
  timeline : Option ℕ
  etcd_state : String
deriving DecidableEq

deriving instance DecidableEq for Except

/-- Python truthiness of an optional integer: `None` and `0` are falsy. -/
def truthyOptNat : Option ℕ → Bool
  | none => false
  | some x => decide (x ≠ 0)

/-- The comparison `replica.get('log_location') < master_log_location`
under the CPython 2 ordering: `None` compares below every integer. -/
def py2LtOpt : Option ℕ → Option ℕ → Bool
  | none, none => false
  | none, some _ => true
  | some _, none => false
  | some x, some y => decide (x < y)

/-- Python subtraction `master_log_location - replica.get('log_location')`:
raises `TypeError` when either operand is `None`, otherwise exact
integer subtraction (the result may be negative). -/
def pySubOpt : Option ℕ → Option ℕ → Except String ℤ
  | some x, some y => Except.ok ((x : ℤ) - y)
  | _, _ => Except.error ("TypeError")

/-- The format specifier `'{amount:.2f}'` applied to the exact rational
value of the lag: round to two decimal places and print with a two-digit
fractional part.  The rounded value `⌊q * 100 + 1 / 2⌋` is computed on
the canonical numerator/denominator of `q` as
`⌊(200 * q.num + q.den) / (2 * q.den)⌋`, which is the same rational.
(CPython formats the corresponding double; for the exactly representable
values handled here the two agree.) -/
def formatTwoDecimals (q : ℚ) : String :=
  let c : ℤ := Rat.floor (Rat.divInt (200 * q.num + (q.den : ℤ)) (2 * (q.den : ℤ)))
  let ip := c / 100
  let fr := c % 100
  toString ip ++ (".") ++ (if fr < 10 then ("0") ++ toString fr else toString fr)

/-- Python substring test `pat in s` on strings. -/
def containsStr (s pat : String) : Bool := decide (pat.toList <:+: s.toList)

/-- `_get_sync_replicas`: collect `client_addr` of the entries of the
primary's `replication` list whose `sync_state` is `'sync'`. -/
def _get_sync_replicas (raw : Option RawAgentStatus) : List String :=
  match raw with
  | none => []
  | some st =>
      (st.replication.filter (fun rep => decide (rep.sync_state = "sync"))).map
        (fun rep => rep.client_addr)

/-- `_get_node_status(address, sync_replica, master)`.  The two probe
results (`_get_raw_node_status(address, 'DB')` and
`_get_raw_node_status(address, 'etcd')`) are external HTTP calls and are
passed in as parameters: `status` is the agent payload (`none` for an
empty/unreachable result) and `etcdStatus` is the `state` field of the
etcd stats payload (`none` for an empty result). -/
def _get_node_status (address : Option String) (status : Option RawAgentStatus)
    (etcdStatus : Option String) (sync_replica : Bool) (master : Bool) : Node :=
  let node0 : Node :=
    { node_ip := address
      alive := false
      errors := []
      raw_status := status
      log_location := none
      state := ""
      timeline := none
      etcd_state := "" }
  let node1 : Node :=
    match status with
    | some st =>
        let withRole :=
          if master then
            { node0 with log_location := st.xlog_location, state := "leader" }
          else if sync_replica then
            { node0 with log_location := st.xlog_replayed_location, state := "sync_replica" }
          else
            { node0 with log_location := st.xlog_replayed_location, state := "async_replica" }
        let withAlive :=
          if st.state = some ("running") then { withRole with alive := true }
          else { withRole with errors := withRole.errors ++ [("Node not running")] }
        { withAlive with timeline := st.timeline }
    | none =>
        { node0 with
            state := "dead"
            errors := node0.errors ++ [("Could not retrieve DB status")] }
  match etcdStatus with
  | some st => { node1 with etcd_state := st }
  | none =>
      { node1 with
          etcd_state := "dead"
          errors := node1.errors ++ [("Could not retrieve etcd status")] }

/-- Reads `master['raw_status'].get('xlog', {}).get('location')`. -/
def masterRawLog (n : Node) : Option ℕ :=
  match n.raw_status with
  | none => none
  | some st => st.xlog_location

/-- Reads `master['raw_status'].get('timeline')`. -/
def masterRawTimeline (n : Node) : Option ℕ :=
  match n.raw_status with
  | none => none
  | some st => st.timeline

/-- Reads `replica['raw_status'].get('state')`. -/
def rawNodeState (raw : Option RawAgentStatus) : Option String :=
  match raw with
  | none => none
  | some st => st.state

/-- The synchronous-replica branch of the per-replica loop of
`_determine_cluster_status`: if
`master_log_location and replica.get('log_location') < master_log_location`
then record `'Out of sync'` on the replica and contribute `DOWN`,
otherwise contribute `HEALTHY` (the identity of `max`). -/
def syncCheck (mlog : Option ℕ) (r : Node) : ℕ × Node :=
  if truthyOptNat mlog = true ∧ py2LtOpt r.log_location mlog = true then
    (DOWN, { r with errors := r.errors ++ [("Out of sync")] })
  else (HEALTHY, r)

/-- The timeline part of the asynchronous-replica branch: if
`master_timeline and replica.get('timeline') != master_timeline` then
record `'Out of sync'` and contribute `DEGRADED`. -/
def timelineCheck (mtl : Option ℕ) (r : Node) : ℕ × Node :=
  if truthyOptNat mtl = true ∧ r.timeline ≠ mtl then
    (DEGRADED, { r with errors := r.errors ++ [("Out of sync")] })
  else (HEALTHY, r)

/-- The lag part of the asynchronous-replica branch:
`lag_bytes = master_log_location - replica.get('log_location')` (which
raises `TypeError` when either value is absent), `lag_mb` is the exact
rational value of the float division `lag_bytes / 1024.0 / 1024.0`
(i.e. `lag_bytes / (1024 * 1024)`), and if `lag_mb > 2` a lag diagnostic
is appended.  The cluster status is never touched here. -/
def lagCheck (mlog : Option ℕ) (r : Node) : Except String Node :=
  match pySubOpt mlog r.log_location with
  | Except.error e => Except.error e
  | Except.ok lagBytes =>
      let lagMb : ℚ := Rat.divInt lagBytes (1024 * 1024)
      if 2 < lagMb then
        Except.ok
          { r with errors := r.errors ++ [("Lag: ") ++ formatTwoDecimals lagMb ++ ("MiB")] }
      else Except.ok r

/-- The trailing split-brain check of the per-replica loop: a replica
whose raw status reports `state == 'master'` gets `'EXTRA MASTER'`
recorded; the cluster status is not modified. -/
def extraMasterCheck (r : Node) : Node :=
  if rawNodeState r.raw_status = some ("master") then
    { r with errors := r.errors ++ [("EXTRA MASTER")] }
  else r

/-- One iteration of the `for replica in replicas` loop of
`_determine_cluster_status`: the status contribution of the iteration
(combined into the running status with `max` by the caller) together
with the replica record as mutated by the iteration. -/
def replicaStep (mlog mtl : Option ℕ) (r : Node) : Except String (ℕ × Node) :=
  if r.state = "sync_replica" then
    Except.ok ((syncCheck mlog r).1, extraMasterCheck (syncCheck mlog r).2)
  else
    match lagCheck mlog (timelineCheck mtl r).2 with
    | Except.error e => Except.error e
    | Except.ok r2 => Except.ok ((timelineCheck mtl r).1, extraMasterCheck r2)

/-- The whole per-replica loop, processed left to right; a `TypeError`
raised by an iteration aborts the evaluation exactly as the Python
exception would. -/
def processReplicas (mlog mtl : Option ℕ) : List Node → Except String (ℕ × List Node)
  | [] => Except.ok (HEALTHY, [])
  | r :: rest =>
      match replicaStep mlog mtl r with
      | Except.error e => Except.error e
      | Except.ok (s, r1) =>
          match processReplicas mlog mtl rest with
          | Except.error e => Except.error e
          | Except.ok (s2, rest1) => Except.ok (max s s2, r1 :: rest1)

/-- The node list the etcd counting loop runs over: when the master
address is unresolved the source reassigns `db_nodes = replicas` before
the etcd loop, otherwise `db_nodes` is the full node list. -/
def consensusNodes (master : Node) (replicas : List Node) : List Node :=
  if master.node_ip = none then replicas else master :: replicas

/-- `etcd_followers`: the count of nodes of the (possibly reassigned)
`db_nodes` whose `etcd_state` is `'StateFollower'`. -/
def etcdFollowers (master : Node) (replicas : List Node) : ℕ :=
  ((consensusNodes master replicas).filter
    (fun n => decide (n.etcd_state = "StateFollower"))).length

/-- `etcd_leaders`: the count of nodes of the (possibly reassigned)
`db_nodes` whose `etcd_state` is `'StateLeader'`. -/
def etcdLeaders (master : Node) (replicas : List Node) : ℕ :=
  ((consensusNodes master replicas).filter
    (fun n => decide (n.etcd_state = "StateLeader"))).length

/-- The status contributions of the five checks that precede the
per-replica loop, in source order: unresolved master, master not alive,
no synchronous replicas, etcd leader count different from one, and the
follower count versus `majority_requirement = member_count // 2` (with
`member_count = 1 + len(replicas)`) and versus `len(replicas)`. -/
def initialContribs (master : Node) (replicas : List Node) : List ℕ :=
  [if master.node_ip = none then DOWN else HEALTHY,
   if master.alive = false then DOWN else HEALTHY,
   if _get_sync_replicas master.raw_status = [] then DOWN else HEALTHY,
   if etcdLeaders master replicas ≠ 1 then DOWN else HEALTHY,
   if etcdFollowers master replicas < (1 + replicas.length) / 2 then DOWN
   else if etcdFollowers master replicas < replicas.length then DEGRADED
   else HEALTHY]

/-- `_determine_cluster_status(db_nodes)`.  `db_nodes[0]` is the master
record and `db_nodes[1:]` the replicas (`IndexError` on an empty list).
The running status starts at `HEALTHY` and every update in the source is
`status = max(status, ...)`; the result is therefore the `max` of the
contributions of the individual checks.  The returned node list is the
(possibly reassigned) `db_nodes` with the replica records as mutated by
the loop. -/
def _determine_cluster_status : List Node → Except String (ℕ × List Node)
  | [] => Except.error ("IndexError")
  | master :: replicas =>
      match processReplicas (masterRawLog master) (masterRawTimeline master) replicas with
      | Except.error e => Except.error e
      | Except.ok (s, replicas1) =>
          Except.ok (max ((initialContribs master replicas).foldl max HEALTHY) s,
            if master.node_ip = none then replicas1 else master :: replicas1)

/-- The status contribution of one replica iteration, ignoring the
record mutation and the possible `TypeError` (which occurs after the
iteration's status update). -/
def replicaContrib (mlog mtl : Option ℕ) (r : Node) : ℕ :=
  if r.state = "sync_replica" then (syncCheck mlog r).1 else (timelineCheck mtl r).1

/-- All status contributions of one evaluation in the fixed source
order: the five initial checks followed by one contribution per
replica. -/
def checkContribs : List Node → List ℕ
  | [] => []
  | master :: replicas =>
      initialContribs master replicas ++
        replicas.map (replicaContrib (masterRawLog master) (masterRawTimeline master))

/-- The running status after the first `k` checks of an evaluation. -/
def statusAfter (db_nodes : List Node) (k : ℕ) : ℕ :=
  ((checkContribs db_nodes).take k).foldl max HEALTHY

/-- The role taxonomy of the specification's `NodeStatus` data model
(spec section 3): `role` ranges over `leader`, `sync_replica`,
`async_replica` and `unknown`; a state string outside the three named
roles is the `unknown` role.  Used to compare the code's `state` values
against the spec's wording. -/
def specRoleOfState (s : String) : String :=
  if s = "leader" ∨ s = "sync_replica" ∨ s = "async_replica" then s else "unknown"

/-- The distinct `DBManagementError` failures raised by the membership
operations, identified by their messages in the source. -/
inductive DBManagementErr where
  /-- "The last replica cannot be removed. ..." -/
  | lastReplica
  /-- "The currently active DB master node cannot be removed. ..." -/
  | cannotRemovePrimary
  /-- "Cannot find node with address ... for removal." -/
  | memberNotFound
  /-- "The selected node is the current master." -/
  | alreadyPrimary
  /-- "Cannot make DB node ... master, as it is not part of the cluster." -/
  | notAMember
  /-- "Set master can only be run from a DB node." -/
  | wrongRole
deriving DecidableEq

/-- The mutation performed by a successful `remove_cluster_node`: on a
database-role node the rewritten `pg_hba` list of the persisted patroni
DCS config blob, on a client/manager-role node the haproxy backend entry
deleted from the proxy config. -/
inductive RemoveOutcome where
  | dbNode (newPgHba : List String)
  | managerNode (removedEntry : String)
deriving DecidableEq

/-- The substring `' {addr}/32 '` used to select `pg_hba` entries that
reference a node address (this is the shape every entry written by
`_add_node_to_pg_hba` contains). -/
def exclusionString (addr : String) : String := (" ") ++ addr ++ ("/32 ")

/-- `HAPROXY_NODE_ENTRY.format(addr=address)`: the proxy backend line
for a node. -/
def haproxyNodeEntry (addr : String) : String :=
  ("    server postgresql_") ++ addr ++ ("_5432 ") ++ addr ++
    (":5432 maxconn 100 check check-ssl port 8008 ca-file /etc/haproxy/ca.crt")

/-- `remove_cluster_node(address)`.  The fresh topology read
(`_get_cluster_addresses()`), the etcd member map
(`_get_etcd_members()`, mapping member IPs to their IDs) and the current
`pg_hba` list of the DCS config blob are external reads passed in as
parameters.  Note the source order of the two safety checks: the
last-replica check runs before the remove-the-primary check. -/
def remove_cluster_node (isDatabaseRole : Bool) (master : Option String)
    (replicas : List String) (etcdMembers : List (String × String))
    (pgHba : List String) (address : String) : Except DBManagementErr RemoveOutcome :=
  if replicas.length < 2 then Except.error DBManagementErr.lastReplica
  else if some address = master then Except.error DBManagementErr.cannotRemovePrimary
  else if isDatabaseRole then
    if (etcdMembers.lookup address).getD ("") = "" then
      Except.error DBManagementErr.memberNotFound
    else
      Except.ok (RemoveOutcome.dbNode
        (pgHba.filter (fun entry => !(containsStr entry (exclusionString address)))))
  else Except.ok (RemoveOutcome.managerNode (haproxyNodeEntry address))

/-- Result of one run of `set_master`'s confirmation phase: the final
value of the `master` variable after the poll loop, the zero-based
indices of the polls after which `time.sleep(1)` ran, the number of
polls performed, and whether the success message (rather than the
timeout warning) was reported. -/
structure SetMasterRun where
  final_master : Option String
  slept_after : List ℕ
  polls : ℕ
  success : Bool
deriving DecidableEq

/-- The `for i in range(30)` poll loop of `set_master`: each iteration
re-resolves the topology (`resolve i` is the master address the `i`-th
poll observes), and sleeps one second only when the observed master
differs from the candidate.  The loop has no `break`, so all 30 polls
run. -/
def setMasterLoop (resolve : ℕ → Option String) (address : String)
    (m0 : Option String) : Option String × List ℕ :=
  (List.range 30).foldl
    (fun acc i =>
      if resolve i ≠ some address then (resolve i, acc.2 ++ [i]) else (resolve i, acc.2))
    (m0, [])

/-- `set_master(address)` on its precondition checks and poll loop.  The
fresh topology read gives `m0` (current master) and `replicas0`; the
per-poll topology reads of the confirmation loop are `resolve`.  After
the loop the success message is logged iff the last observed master
equals the candidate, otherwise the non-fatal timeout warning. -/
def set_master (isDatabaseRole : Bool) (m0 : Option String) (replicas0 : List String)
    (resolve : ℕ → Option String) (address : String) :
    Except DBManagementErr SetMasterRun :=
  if some address = m0 then Except.error DBManagementErr.alreadyPrimary
  else if address ∉ m0.toList ++ replicas0 then Except.error DBManagementErr.notAMember
  else if isDatabaseRole then
    let run := setMasterLoop resolve address m0
    Except.ok
      { final_master := run.1
        slept_after := run.2
        polls := 30
        success := run.1 = some address }
  else Except.error DBManagementErr.wrongRole

/-- One row of the haproxy backend table as returned by
`common.get_haproxy_servers`: the fields read by the topology code. -/
structure Backend where
  svname : String
  status : String
deriving DecidableEq

/-- Python `str.split(sep)` for a one-character separator, over the
character list of the string. -/
def splitOnChar (c : Char) : List Char → List (List Char)
  | [] => [[]]
  | x :: xs =>
      if x = c then [] :: splitOnChar c xs
      else
        match splitOnChar c xs with
        | [] => [[x]]
        | w :: ws => (x :: w) :: ws

/-- `backend['svname'].split('_')[1]`: the address encoded in a backend
name of the form `postgresql_192.0.2.48_5432`; `none` models the
`IndexError` when the name has no second component. -/
def backendAddr (b : Backend) : Option String :=
  (((splitOnChar ('_') b.svname.toList)).map (fun l => String.mk l)).get? 1

/-- The manager-role loop of `_get_cluster_addresses` over the haproxy
backend table, with the `master` and `replicas` accumulators: a backend
whose status is `'UP'` overwrites `master`, every other backend is
appended to `replicas`. -/
def gcaManagerLoop : List Backend → Option String → List String →
    Except String (Option String × List String)
  | [], m, reps => Except.ok (m, reps)
  | b :: rest, m, reps =>
      match backendAddr b with
      | none => Except.error ("IndexError")
      | some server_name =>
          if b.status = "UP" then gcaManagerLoop rest (some server_name) reps
          else gcaManagerLoop rest m (reps ++ [server_name])

/-- The proxy-observed branch of `_get_cluster_addresses` (caller runs
the manager service): resolve `(master, replicas)` from the live haproxy
backend table. -/
def _get_cluster_addresses_manager (backends : List Backend) :
    Except String (Option String × List String) :=
  gcaManagerLoop backends none []

/-- Folding `max` with any start value equals `max` of the start value
and the fold from zero. -/
lemma foldl_max_from (l : List ℕ) : ∀ a : ℕ, l.foldl max a = max a (l.foldl max 0) := by
  induction l with
  | nil => intro a; simp
  | cons x xs ih =>
      intro a
      simp only [List.foldl_cons]
      rw [ih (max a x), ih (max 0 x), Nat.zero_max, max_assoc]

/-- The start value is a lower bound of a `max` fold. -/
lemma le_foldl_max (l : List ℕ) (a : ℕ) : a ≤ l.foldl max a := by
  rw [foldl_max_from]
  exact le_max_left _ _

/-- A common upper bound of the start value and all elements bounds a
`max` fold. -/
lemma foldl_max_le (l : List ℕ) : ∀ a c : ℕ, a ≤ c → (∀ x ∈ l, x ≤ c) →
    l.foldl max a ≤ c := by
  induction l with
  | nil => intro a c ha _; simpa using ha
  | cons x xs ih =>
      intro a c ha hall
      simp only [List.foldl_cons]
      exact ih _ _ (max_le ha (hall x (List.mem_cons_self x xs)))
        (fun y hy => hall y (List.mem_cons_of_mem x hy))

/-- Any element of the list is a lower bound of a `max` fold. -/
lemma mem_le_foldl_max (l : List ℕ) : ∀ a x : ℕ, x ∈ l → x ≤ l.foldl max a := by
  induction l with
  | nil => intro a x hx; cases hx
  | cons y ys ih =>
      intro a x hx
      simp only [List.foldl_cons]
      rcases List.mem_cons.mp hx with h | h
      · subst h
        exact le_trans (le_max_right a x) (le_foldl_max ys (max a x))
      · exact ih (max a y) x h

/-- `extraMasterCheck` never changes `node_ip`. -/
lemma extraMasterCheck_node_ip (r : Node) : (extraMasterCheck r).node_ip = r.node_ip := by
  unfold extraMasterCheck
  split <;> rfl

/-- `extraMasterCheck` only appends diagnostics, so error membership is
preserved. -/
lemma extraMasterCheck_errors_mem (r : Node) (e : String) (h : e ∈ r.errors) :
    e ∈ (extraMasterCheck r).errors := by
  unfold extraMasterCheck
  split
  · exact List.mem_append_left _ h
  · exact h

/-- Status contributions of the per-replica checks never exceed `DOWN`. -/
lemma replicaContrib_le_DOWN (mlog mtl : Option ℕ) (r : Node) :
    replicaContrib mlog mtl r ≤ DOWN := by
  unfold replicaContrib syncCheck timelineCheck
  split <;> split <;> simp [HEALTHY, DEGRADED, DOWN]

/-- Status contributions of the initial checks never exceed `DOWN`. -/
lemma initialContribs_le_DOWN (master : Node) (replicas : List Node) :
    ∀ x ∈ initialContribs master replicas, x ≤ DOWN := by
  intro x hx
  unfold initialContribs at hx
  simp only [List.mem_cons, List.mem_singleton] at hx
  rcases hx with h | h | h | h | h | h
  all_goals (first
    | (subst h; split_ifs <;> simp [HEALTHY, DEGRADED, DOWN])
    | cases h)

/-- A successful replica iteration contributes exactly
`replicaContrib`. -/
lemma replicaStep_ok_status (mlog mtl : Option ℕ) (r : Node) (s : ℕ) (r1 : Node)
    (h : replicaStep mlog mtl r = Except.ok (s, r1)) : s = replicaContrib mlog mtl r := by
  unfold replicaStep at h
  unfold replicaContrib
  by_cases hs : r.state = "sync_replica"
  · rw [if_pos hs] at h
    rw [if_pos hs]
    simp only [Except.ok.injEq, Prod.mk.injEq] at h
    exact h.1.symm
  · rw [if_neg hs] at h
    rw [if_neg hs]
    cases hlc : lagCheck mlog (timelineCheck mtl r).2 with
    | error e => rw [hlc] at h; cases h
    | ok r2 =>
        rw [hlc] at h
        simp only [Except.ok.injEq, Prod.mk.injEq] at h
        exact h.1.symm

/-- A successful run of the replica loop returns the `max` of the
per-replica contributions. -/
lemma processReplicas_ok_status (mlog mtl : Option ℕ) :
    ∀ (rs : List Node) (s : ℕ) (rs1 : List Node),
      processReplicas mlog mtl rs = Except.ok (s, rs1) →
      s = (rs.map (replicaContrib mlog mtl)).foldl max 0 := by
  intro rs
  induction rs with
  | nil =>
      intro s rs1 h
      simp only [processReplicas, Except.ok.injEq, Prod.mk.injEq] at h
      simp [← h.1, HEALTHY]
  | cons r rest ih =>
      intro s rs1 h
      unfold processReplicas at h
      cases hstep : replicaStep mlog mtl r with
      | error e => rw [hstep] at h; cases h
      | ok p =>
          rw [hstep] at h
          cases hrest : processReplicas mlog mtl rest with
          | error e => rw [hrest] at h; cases h
          | ok q =>
              rw [hrest] at h
              simp only [Except.ok.injEq, Prod.mk.injEq] at h
              have h1 : p.1 = replicaContrib mlog mtl r :=
                replicaStep_ok_status mlog mtl r p.1 p.2 (by rw [hstep])
              have h2 : q.1 = (rest.map (replicaContrib mlog mtl)).foldl max 0 :=
                ih q.1 q.2 (by rw [hrest])
              rw [← h.1, h1, h2]
              rw [List.map_cons, List.foldl_cons]
              rw [foldl_max_from (rest.map (replicaContrib mlog mtl))
                    (max 0 (replicaContrib mlog mtl r)),
                  Nat.zero_max]

/-- A successful run of the replica loop processes members in place: any
input replica appears in the output as its processed record, and its
contribution bounds the loop's status. -/
lemma processReplicas_mem (mlog mtl : Option ℕ) :
    ∀ (rs : List Node) (r : Node) (s : ℕ) (rs1 : List Node) (sr : ℕ) (r1 : Node),
      r ∈ rs →
      processReplicas mlog mtl rs = Except.ok (s, rs1) →
      replicaStep mlog mtl r = Except.ok (sr, r1) →
      sr ≤ s ∧ r1 ∈ rs1 := by
  intro rs
  induction rs with
  | nil => intro r s rs1 sr r1 hmem _ _; cases hmem
  | cons x rest ih =>
      intro r s rs1 sr r1 hmem h hstep
      unfold processReplicas at h
      cases hx : replicaStep mlog mtl x with
      | error e => rw [hx] at h; cases h
      | ok p =>
          obtain ⟨p1, p2⟩ := p
          rw [hx] at h
          cases hrest : processReplicas mlog mtl rest with
          | error e => rw [hrest] at h; cases h
          | ok q =>
              obtain ⟨q1, q2⟩ := q
              rw [hrest] at h
              simp only [Except.ok.injEq, Prod.mk.injEq] at h
              rcases List.mem_cons.mp hmem with heq | hmemr
              · subst heq
                rw [hstep] at hx
                simp only [Except.ok.injEq, Prod.mk.injEq] at hx
                constructor
                · rw [← h.1, ← hx.1]
                  exact le_max_left _ _
                · rw [← h.2, ← hx.2]
                  exact List.mem_cons_self _ _
              · have hrec := ih r q1 q2 sr r1 hmemr (by rw [hrest]) hstep
                constructor
                · exact le_trans hrec.1 (le_trans (le_max_right p1 q1) (le_of_eq h.1))
                · rw [← h.2]
                  exact List.mem_cons_of_mem _ hrec.2

/-- A successful evaluation returns the `max` of all check
contributions in source order. -/
lemma determine_ok_status (db_nodes : List Node) (s : ℕ) (ns : List Node)
    (h : _determine_cluster_status db_nodes = Except.ok (s, ns)) :
    s = (checkContribs db_nodes).foldl max 0 := by
  cases db_nodes with
  | nil => simp [_determine_cluster_status] at h
  | cons master replicas =>
      simp only [_determine_cluster_status] at h
      cases hpr : processReplicas (masterRawLog master) (masterRawTimeline master) replicas with
      | error e => rw [hpr] at h; cases h
      | ok q =>
          obtain ⟨q1, q2⟩ := q
          rw [hpr] at h
          simp only [Except.ok.injEq, Prod.mk.injEq] at h
          have hq : q1 = (replicas.map
              (replicaContrib (masterRawLog master) (masterRawTimeline master))).foldl max 0 :=
            processReplicas_ok_status _ _ replicas q1 q2 (by rw [hpr])
          rw [← h.1, hq]
          simp only [checkContribs]
          rw [List.foldl_append]
          rw [foldl_max_from
                (replicas.map (replicaContrib (masterRawLog master) (masterRawTimeline master)))
                (List.foldl max 0 (initialContribs master replicas))]
          rw [show ((initialContribs master replicas).foldl max HEALTHY)
                = ((initialContribs master replicas).foldl max 0) from rfl]


/-- Every contribution of an evaluation is at most `DOWN`. -/
lemma checkContribs_le_DOWN (db_nodes : List Node) :
    ∀ x ∈ checkContribs db_nodes, x ≤ DOWN := by
  cases db_nodes with
  | nil => intro x hx; cases hx
  | cons master replicas =>
      intro x hx
      simp only [checkContribs] at hx
      rcases List.mem_append.mp hx with h | h
      · exact initialContribs_le_DOWN master replicas x h
      · rcases List.mem_map.mp h with ⟨r, _, hr⟩
        rw [← hr]
        exact replicaContrib_le_DOWN _ _ r

/-- A completed evaluation never returns more than `DOWN`. -/
lemma determine_ok_le_DOWN (db_nodes : List Node) (s : ℕ) (ns : List Node)
    (h : _determine_cluster_status db_nodes = Except.ok (s, ns)) : s ≤ DOWN := by
  rw [determine_ok_status db_nodes s ns h]
  exact foldl_max_le _ 0 DOWN (by simp [DOWN]) (checkContribs_le_DOWN db_nodes)

/-- Inversion of a successful evaluation into its replica-loop result. -/
lemma determine_ok_inv (master : Node) (replicas : List Node) (s : ℕ) (ns : List Node)
    (h : _determine_cluster_status (master :: replicas) = Except.ok (s, ns)) :
    ∃ s2 rs1,
      processReplicas (masterRawLog master) (masterRawTimeline master) replicas =
        Except.ok (s2, rs1) ∧
      s = max ((initialContribs master replicas).foldl max HEALTHY) s2 ∧
      ns = (if master.node_ip = none then rs1 else master :: rs1) := by
  simp only [_determine_cluster_status] at h
  cases hpr : processReplicas (masterRawLog master) (masterRawTimeline master) replicas with
  | error e => rw [hpr] at h; cases h
  | ok q =>
      obtain ⟨q1, q2⟩ := q
      rw [hpr] at h
      simp only [Except.ok.injEq, Prod.mk.injEq] at h
      exact ⟨q1, q2, rfl, h.1.symm, h.2.symm⟩

/-- A node record for a configured address whose agent and etcd probes
both came back empty, as built by the aggregator. -/
def exDeadMaster : Node := _get_node_status (some ("10.0.0.9")) none none false true

/-- Claim C1: for every input node list, the status computed by the
quorum evaluation `_determine_cluster_status` is monotonic non-decreasing
across the fixed check order — the running status after `k` checks never
exceeds the running status after `l ≥ k` checks (each check can only
raise the verdict, `HEALTHY < DEGRADED < DOWN`, and a verdict of `DOWN`
is never lowered later within one evaluation) — and the status returned
by a completed evaluation is exactly the running status after all
checks. -/
theorem cluster_status_monotonic (db_nodes : List Node) (k l : ℕ) (hkl : k ≤ l)
    (s : ℕ) (ns : List Node)
    (hok : _determine_cluster_status db_nodes = Except.ok (s, ns)) :
    statusAfter db_nodes k ≤ statusAfter db_nodes l ∧
    s = statusAfter db_nodes (checkContribs db_nodes).length := by
  constructor
  · unfold statusAfter
    rw [show (checkContribs db_nodes).take k = ((checkContribs db_nodes).take l).take k from by
      rw [List.take_take, min_eq_left hkl]]
    conv_rhs => rw [← List.take_append_drop k ((checkContribs db_nodes).take l)]
    rw [List.foldl_append]
    exact le_foldl_max _ _
  · unfold statusAfter
    rw [List.take_length]
    rw [show ((checkContribs db_nodes).foldl max HEALTHY)
          = ((checkContribs db_nodes).foldl max 0) from rfl]
    exact determine_ok_status db_nodes s ns hok

/-- Witness for C1 at a concrete single-node evaluation that completes
with verdict `DOWN`. -/
theorem cluster_status_monotonic_witness :
    statusAfter [exDeadMaster] 1 ≤ statusAfter [exDeadMaster] 3 ∧
    (2 : ℕ) = statusAfter [exDeadMaster] (checkContribs [exDeadMaster]).length :=
  cluster_status_monotonic [exDeadMaster] 1 3 (by decide) 2 [exDeadMaster] (by rfl)

/-- The master record built when no primary address was resolved at all:
`_get_node_status(None, master=True)` probes nothing (both probe helpers
return early on a `None` address), so the record is dead with no raw
status. -/
def c3MasterNode : Node := _get_node_status none none none false true

/-- A replica record for a node whose probes also came back empty (its
`state` is `'dead'`, so the evaluator treats it in the asynchronous
branch of the per-replica loop, and its `log_location` is absent). -/
def c3ReplicaNode : Node := _get_node_status (some ("10.0.0.2")) none none false false

/-- Claim C3 (code bug): with no resolved primary the replica set is
substituted and the guarded comparisons are skipped, but evaluation does
not complete without error for every replica input: the unguarded lag
computation of the asynchronous branch subtracts the replica log
position from the absent (`None`) primary log position and raises
`TypeError` as soon as any replica reaches that branch. -/
theorem unresolved_primary_lag_type_error :
    c3MasterNode.node_ip = none ∧
    _determine_cluster_status [c3MasterNode, c3ReplicaNode] = Except.error ("TypeError") := by
  exact ⟨rfl, rfl⟩

/-- Agent payload of a healthy running node, for concrete witnesses. -/
def exRunning (tl loc rep : ℕ) (repl : List RepEntry) : RawAgentStatus :=
  { state := some ("running")
    timeline := some tl
    xlog_location := some loc
    xlog_replayed_location := some rep
    replication := repl }

/-- Claim C5: in every evaluation that completes, a synchronous replica
whose log position (present) is numerically less than the primary's log
position (present) forces the verdict to `DOWN`, and the replica's
record in the output carries `'Out of sync'` in its error list. -/
theorem sync_replica_behind_forces_down (master : Node) (replicas : List Node) (r : Node)
    (a b : ℕ) (s : ℕ) (ns : List Node)
    (hr : r ∈ replicas)
    (hstate : r.state = "sync_replica")
    (hmlog : masterRawLog master = some a)
    (hrlog : r.log_location = some b)
    (hlt : b < a)
    (hok : _determine_cluster_status (master :: replicas) = Except.ok (s, ns)) :
    s = DOWN ∧
    (ns.any (fun r2 =>
      decide (r2.node_ip = r.node_ip) && decide (("Out of sync") ∈ r2.errors))) = true := by
  obtain ⟨s2, rs1, hpr, hs, hns⟩ := determine_ok_inv master replicas s ns hok
  have hstep : replicaStep (masterRawLog master) (masterRawTimeline master) r =
      Except.ok (DOWN, extraMasterCheck { r with errors := r.errors ++ [("Out of sync")] }) := by
    unfold replicaStep
    rw [if_pos hstate]
    unfold syncCheck
    rw [if_pos]
    constructor
    · rw [hmlog]
      simp [truthyOptNat]
      omega
    · rw [hmlog, hrlog]
      simp [py2LtOpt]
      exact hlt
  have hmm := processReplicas_mem (masterRawLog master) (masterRawTimeline master) replicas r
    s2 rs1 DOWN (extraMasterCheck { r with errors := r.errors ++ [("Out of sync")] })
    hr hpr hstep
  constructor
  · have hle : s ≤ DOWN := determine_ok_le_DOWN _ s ns hok
    have hge : DOWN ≤ s := by
      rw [hs]
      exact le_trans hmm.1 (le_max_right _ _)
    exact le_antisymm hle hge
  · rw [List.any_eq_true]
    refine ⟨extraMasterCheck { r with errors := r.errors ++ [("Out of sync")] }, ?_, ?_⟩
    · rw [hns]
      split
      · exact hmm.2
      · exact List.mem_cons_of_mem _ hmm.2
    · rw [Bool.and_eq_true, decide_eq_true_eq, decide_eq_true_eq]
      constructor
      · rw [extraMasterCheck_node_ip]
      · exact extraMasterCheck_errors_mem _ _
          (List.mem_append_right _ (List.mem_singleton.mpr rfl))

/-- The primary of the C5 witness cluster: log position 1000, one
synchronous replica reported. -/
def exC5Master : Node := _get_node_status (some ("10.0.0.1"))
  (some (exRunning 1 1000 0 [{ client_addr := ("10.0.0.2"), sync_state := ("sync") }]))
  (some ("StateLeader")) false true

/-- The C5 witness synchronous replica, replayed only up to 500. -/
def exC5Replica : Node := _get_node_status (some ("10.0.0.2"))
  (some (exRunning 1 0 500 [])) (some ("StateFollower")) true false

/-- The node list returned by the C5 witness evaluation. -/
def exC5Out : List Node :=
  ((_determine_cluster_status [exC5Master, exC5Replica]).toOption.map Prod.snd).getD []

/-- Witness for C5 at a concrete two-node cluster whose synchronous
replica is behind the primary. -/
theorem sync_replica_behind_forces_down_witness :
    (2 : ℕ) = DOWN ∧
    (exC5Out.any (fun r2 =>
      decide (r2.node_ip = exC5Replica.node_ip) &&
        decide (("Out of sync") ∈ r2.errors))) = true :=
  sync_replica_behind_forces_down exC5Master [exC5Replica] exC5Replica 1000 500 2 exC5Out
    (by decide) (by rfl) (by rfl) (by rfl) (by decide) (by rfl)

/-- Claim C6: an asynchronous replica on the primary's timeline whose
log position lags the primary's by exactly 3 MiB (3145728 bytes)
contributes `HEALTHY` — the identity of the `max` that combines check
results, so the verdict stays at whatever the prior checks set — while
its error list gains the lag diagnostic `'Lag: 3.00MiB'`, which contains
the substring `'3.00MiB'`. -/
theorem async_lag_three_mib (mlog mtl : Option ℕ) (r : Node) (a b t : ℕ)
    (hstate : r.state ≠ "sync_replica")
    (hmtl : mtl = some t) (hrtl : r.timeline = some t)
    (hmlog : mlog = some a) (hrlog : r.log_location = some b)
    (hlag : (a : ℤ) - (b : ℤ) = 3145728) :
    replicaStep mlog mtl r =
      Except.ok (HEALTHY,
        extraMasterCheck { r with errors := r.errors ++ [("Lag: 3.00MiB")] }) ∧
    containsStr ("Lag: 3.00MiB") ("3.00MiB") = true := by
  constructor
  · unfold replicaStep
    rw [if_neg hstate]
    have htc : timelineCheck mtl r = (HEALTHY, r) := by
      unfold timelineCheck
      rw [if_neg]
      rintro ⟨_, hne⟩
      exact hne (by rw [hrtl, hmtl])
    rw [htc]
    have hlc : lagCheck mlog r =
        Except.ok { r with errors := r.errors ++ [("Lag: 3.00MiB")] } := by
      unfold lagCheck
      rw [hmlog, hrlog]
      have hsub : pySubOpt (some a) (some b) = Except.ok ((3145728 : ℤ)) := by
        simp only [pySubOpt, Except.ok.injEq]
        exact hlag
      rw [hsub]
      dsimp only
      rw [if_pos (by decide : (2 : ℚ) < Rat.divInt 3145728 (1024 * 1024))]
      rw [show formatTwoDecimals (Rat.divInt 3145728 (1024 * 1024)) = ("3.00") from by decide]
      rfl
    rw [hlc]
  · decide

/-- The C6 witness asynchronous replica: same timeline as the primary,
replayed position 0. -/
def exC6Replica : Node := _get_node_status (some ("10.0.0.3"))
  (some (exRunning 1 0 0 [])) (some ("StateFollower")) false false

/-- Witness for C6 with a primary log position exactly 3 MiB ahead. -/
theorem async_lag_three_mib_witness :
    replicaStep (some 3145728) (some 1) exC6Replica =
      Except.ok (HEALTHY,
        extraMasterCheck { exC6Replica with
          errors := exC6Replica.errors ++ [("Lag: 3.00MiB")] }) ∧
    containsStr ("Lag: 3.00MiB") ("3.00MiB") = true :=
  async_lag_three_mib (some 3145728) (some 1) exC6Replica 3145728 0 1
    (by decide) (by rfl) (by rfl) (by rfl) (by rfl) (by decide)

/-- Claim C7: for every node address whose agent status probe returns
empty, the aggregated node status has the role that is neither leader
nor a replica role — the source stores the state string `'dead'`, which
is the role the specification's `NodeStatus` taxonomy calls `unknown` —
with `alive = false` and the error `'Could not retrieve DB status'`
appended to its error list. -/
theorem node_status_when_agent_probe_empty (address : Option String)
    (etcdStatus : Option String) (sync_replica : Bool) (master : Bool) :
    specRoleOfState (_get_node_status address none etcdStatus sync_replica master).state
        = "unknown" ∧
    (_get_node_status address none etcdStatus sync_replica master).state = "dead" ∧
    (_get_node_status address none etcdStatus sync_replica master).alive = false ∧
    ("Could not retrieve DB status") ∈
      (_get_node_status address none etcdStatus sync_replica master).errors := by
  cases etcdStatus with
  | none =>
      refine ⟨rfl, rfl, rfl, ?_⟩
      simp [_get_node_status]
  | some st =>
      refine ⟨rfl, rfl, rfl, ?_⟩
      simp [_get_node_status]

/-- Claim C2 counterexample: with only one replica remaining, removing
the primary fails with the `LastReplica` error, not with
`CannotRemovePrimary` — the last-replica check runs first in the
source. -/
theorem remove_primary_claim_counterexample :
    remove_cluster_node true (some ("10.0.0.1")) [("10.0.0.2")]
        [(("10.0.0.1"), ("id1")), (("10.0.0.2"), ("id2"))] [] ("10.0.0.1") =
      Except.error DBManagementErr.lastReplica ∧
    remove_cluster_node true (some ("10.0.0.1")) [("10.0.0.2")]
        [(("10.0.0.1"), ("id1")), (("10.0.0.2"), ("id2"))] [] ("10.0.0.1") ≠
      Except.error DBManagementErr.cannotRemovePrimary := by
  exact ⟨rfl, by decide⟩

/-- Claim C2 as amended: removing the primary's address always fails
before any mutation, with `CannotRemovePrimary` whenever at least two
replicas remain; when fewer than two replicas remain the earlier
last-replica check fires instead and the call fails with
`LastReplica`. -/
theorem remove_primary_always_rejected (isDatabaseRole : Bool) (master : Option String)
    (replicas : List String) (etcdMembers : List (String × String))
    (pgHba : List String) (address : String)
    (hprim : master = some address) :
    (2 ≤ replicas.length →
      remove_cluster_node isDatabaseRole master replicas etcdMembers pgHba address =
        Except.error DBManagementErr.cannotRemovePrimary) ∧
    (replicas.length < 2 →
      remove_cluster_node isDatabaseRole master replicas etcdMembers pgHba address =
        Except.error DBManagementErr.lastReplica) := by
  constructor
  · intro hlen
    unfold remove_cluster_node
    rw [if_neg (by omega), if_pos (by rw [hprim])]
  · intro hlen
    unfold remove_cluster_node
    rw [if_pos hlen]

/-- Witness for the amended C2 at concrete topologies on both sides of
the replica-count threshold. -/
theorem remove_primary_always_rejected_witness :
    (2 ≤ ([("10.0.0.2"), ("10.0.0.3")] : List String).length →
      remove_cluster_node true (some ("10.0.0.1")) [("10.0.0.2"), ("10.0.0.3")]
          [(("10.0.0.1"), ("id1"))] [] ("10.0.0.1") =
        Except.error DBManagementErr.cannotRemovePrimary) ∧
    (([("10.0.0.2"), ("10.0.0.3")] : List String).length < 2 →
      remove_cluster_node true (some ("10.0.0.1")) [("10.0.0.2"), ("10.0.0.3")]
          [(("10.0.0.1"), ("id1"))] [] ("10.0.0.1") =
        Except.error DBManagementErr.lastReplica) :=
  remove_primary_always_rejected true (some ("10.0.0.1")) [("10.0.0.2"), ("10.0.0.3")]
    [(("10.0.0.1"), ("id1"))] [] ("10.0.0.1") rfl

/-- Claim C8: a database-role `remove_cluster_node` that succeeds
rewrites the persisted `pg_hba` list of the consensus config blob so
that no entry referencing the removed address (i.e. containing
`' {address}/32 '`, the shape of every entry `_add_node_to_pg_hba`
writes) remains, while every other entry is kept byte-identical in its
original order. -/
theorem remove_node_pg_hba_roundtrip (master : Option String) (replicas : List String)
    (etcdMembers : List (String × String)) (pgHba : List String) (address : String)
    (newHba : List String)
    (hok : remove_cluster_node true master replicas etcdMembers pgHba address =
      Except.ok (RemoveOutcome.dbNode newHba)) :
    (newHba.all (fun e => !(containsStr e (exclusionString address)))) = true ∧
    newHba.Sublist pgHba ∧
    (pgHba.all (fun e => containsStr e (exclusionString address) || newHba.contains e)) = true := by
  have hfilter : newHba =
      pgHba.filter (fun entry => !(containsStr entry (exclusionString address))) := by
    unfold remove_cluster_node at hok
    by_cases h1 : replicas.length < 2
    · rw [if_pos h1] at hok; cases hok
    · rw [if_neg h1] at hok
      by_cases h2 : some address = master
      · rw [if_pos h2] at hok; cases hok
      · rw [if_neg h2, if_pos rfl] at hok
        by_cases h3 : (etcdMembers.lookup address).getD ("") = ""
        · rw [if_pos h3] at hok; cases hok
        · rw [if_neg h3] at hok
          simp only [Except.ok.injEq, RemoveOutcome.dbNode.injEq] at hok
          exact hok.symm
  subst hfilter
  refine ⟨?_, List.filter_sublist _, ?_⟩
  · rw [List.all_eq_true]
    intro e he
    exact (List.mem_filter.mp he).2
  · rw [List.all_eq_true]
    intro e he
    rw [Bool.or_eq_true]
    by_cases hc : containsStr e (exclusionString address) = true
    · exact Or.inl hc
    · refine Or.inr ?_
      have hmem : e ∈ pgHba.filter
          (fun entry => !(containsStr entry (exclusionString address))) :=
        List.mem_filter.mpr ⟨he, by simp [hc]⟩
      exact List.elem_eq_true_of_mem hmem

/-- Witness for C8 at a concrete blob holding entries for three
addresses, removing one of them. -/
theorem remove_node_pg_hba_roundtrip_witness :
    ((([("hostssl all postgres 10.0.0.1/32 md5"),
        ("hostssl replication replicator 10.0.0.3/32 md5"),
        ("hostssl all postgres 10.0.0.3/32 md5"),
        ("hostssl all postgres 10.0.0.2/32 md5")] : List String).filter
          (fun entry => !(containsStr entry (exclusionString ("10.0.0.3"))))).all
        (fun e => !(containsStr e (exclusionString ("10.0.0.3"))))) = true ∧
    (([("hostssl all postgres 10.0.0.1/32 md5"),
       ("hostssl replication replicator 10.0.0.3/32 md5"),
       ("hostssl all postgres 10.0.0.3/32 md5"),
       ("hostssl all postgres 10.0.0.2/32 md5")] : List String).filter
        (fun entry => !(containsStr entry (exclusionString ("10.0.0.3"))))).Sublist
      [("hostssl all postgres 10.0.0.1/32 md5"),
       ("hostssl replication replicator 10.0.0.3/32 md5"),
       ("hostssl all postgres 10.0.0.3/32 md5"),
       ("hostssl all postgres 10.0.0.2/32 md5")] ∧
    (([("hostssl all postgres 10.0.0.1/32 md5"),
       ("hostssl replication replicator 10.0.0.3/32 md5"),
       ("hostssl all postgres 10.0.0.3/32 md5"),
       ("hostssl all postgres 10.0.0.2/32 md5")] : List String).all
      (fun e => containsStr e (exclusionString ("10.0.0.3")) ||
        (([("hostssl all postgres 10.0.0.1/32 md5"),
           ("hostssl replication replicator 10.0.0.3/32 md5"),
           ("hostssl all postgres 10.0.0.3/32 md5"),
           ("hostssl all postgres 10.0.0.2/32 md5")] : List String).filter
            (fun entry => !(containsStr entry (exclusionString ("10.0.0.3"))))).contains e))
      = true :=
  remove_node_pg_hba_roundtrip (some ("10.0.0.1")) [("10.0.0.2"), ("10.0.0.3")]
    [(("10.0.0.3"), ("idc"))]
    [("hostssl all postgres 10.0.0.1/32 md5"),
     ("hostssl replication replicator 10.0.0.3/32 md5"),
     ("hostssl all postgres 10.0.0.3/32 md5"),
     ("hostssl all postgres 10.0.0.2/32 md5")]
    ("10.0.0.3") _ (by rfl)

/-- Unrolling of the `set_master` poll loop: after any positive number
of polls the `master` variable holds the last poll's observation and the
sleep log holds exactly the indices of the polls that observed a
different master. -/
lemma setMasterLoop_aux (resolve : ℕ → Option String) (address : String) :
    ∀ (n : ℕ) (acc : Option String × List ℕ),
      (List.range (n + 1)).foldl
        (fun acc i =>
          if resolve i ≠ some address then (resolve i, acc.2 ++ [i]) else (resolve i, acc.2))
        acc =
      (resolve n,
        acc.2 ++ (List.range (n + 1)).filter (fun i => decide (resolve i ≠ some address))) := by
  intro n
  induction n with
  | zero =>
      intro acc
      by_cases h : resolve 0 ≠ some address
      · simp [List.range_succ, h]
      · simp [List.range_succ, h]
  | succ n ih =>
      intro acc
      rw [List.range_succ, List.foldl_append, ih acc, List.filter_append]
      simp only [List.foldl_cons, List.foldl_nil]
      by_cases h : resolve (n + 1) ≠ some address
      · rw [if_pos h]
        simp [h, List.append_assoc]
      · rw [if_neg h]
        simp [h]

/-- The poll loop of `set_master` in closed form. -/
lemma setMasterLoop_spec (resolve : ℕ → Option String) (address : String)
    (m0 : Option String) :
    setMasterLoop resolve address m0 =
      (resolve 29, (List.range 30).filter (fun i => decide (resolve i ≠ some address))) := by
  have h := setMasterLoop_aux resolve address 29 (m0, [])
  unfold setMasterLoop
  simpa using h

/-- Claim C9: if the resolved primary first equals the candidate at the
10th poll (zero-based poll index 9) and remains so, `set_master`
performs exactly 30 polls (hence at most 30), sleeps only after the
first nine polls — never after the poll that first observes the new
primary — and reports success rather than the timeout warning. -/
theorem set_master_confirms_at_tenth_poll (m0 : Option String) (replicas0 : List String)
    (resolve : ℕ → Option String) (address : String)
    (hnp : some address ≠ m0)
    (hmem : address ∈ replicas0)
    (hbefore : ∀ i, i < 9 → resolve i ≠ some address)
    (hafter : ∀ i, 9 ≤ i → i < 30 → resolve i = some address) :
    set_master true m0 replicas0 resolve address =
      Except.ok
        { final_master := some address
          slept_after := List.range 9
          polls := 30
          success := true } := by
  unfold set_master
  rw [if_neg hnp]
  rw [if_neg (by
    intro hne
    exact hne (List.mem_append_right _ hmem))]
  rw [if_pos rfl]
  rw [setMasterLoop_spec]
  have hfil : (List.range 30).filter (fun i => decide (resolve i ≠ some address)) =
      List.range 9 := by
    rw [show (30 : ℕ) = 9 + 21 from rfl, List.range_add, List.filter_append]
    rw [List.filter_eq_self.mpr (by
      intro i hi
      exact decide_eq_true (hbefore i (List.mem_range.mp hi)))]
    rw [List.filter_eq_nil_iff.mpr (by
      intro i hi
      rcases List.mem_map.mp hi with ⟨j, hj, hji⟩
      have hj21 := List.mem_range.mp hj
      have h9 : resolve i = some address := by
        rw [← hji]
        exact hafter (9 + j) (by omega) (by omega)
      simp [h9])]
    rw [List.append_nil]
  have h29 : resolve 29 = some address := hafter 29 (by omega) (by omega)
  rw [hfil, h29]
  simp

/-- Topology observations for the C9 witness: the first nine polls still
see the old primary, every later poll sees the candidate. -/
def exResolve : ℕ → Option String := fun i =>
  if i < 9 then some ("10.0.0.1") else some ("10.0.0.2")

/-- Witness for C9 at a concrete promote call. -/
theorem set_master_confirms_at_tenth_poll_witness :
    set_master true (some ("10.0.0.1")) [("10.0.0.2")] exResolve ("10.0.0.2") =
      Except.ok
        { final_master := some ("10.0.0.2")
          slept_after := List.range 9
          polls := 30
          success := true } :=
  set_master_confirms_at_tenth_poll (some ("10.0.0.1")) [("10.0.0.2")] exResolve
    ("10.0.0.2") (by decide) (by decide)
    (by
      intro i hi
      unfold exResolve
      rw [if_pos hi]
      decide)
    (by
      intro i h9 _
      unfold exResolve
      rw [if_neg (by omega)])

/-- The backend loop distributes over list concatenation. -/
lemma gcaManagerLoop_append (xs ys : List Backend) :
    ∀ (m : Option String) (reps : List String),
      gcaManagerLoop (xs ++ ys) m reps =
        match gcaManagerLoop xs m reps with
        | Except.error e => Except.error e
        | Except.ok p => gcaManagerLoop ys p.1 p.2 := by
  induction xs with
  | nil => intro m reps; rfl
  | cons b rest ih =>
      intro m reps
      cases hb : backendAddr b with
      | none => simp only [List.cons_append, gcaManagerLoop, hb]
      | some nm =>
          by_cases hup : b.status = "UP"
          · simp only [List.cons_append, gcaManagerLoop, hb]
            rw [if_pos hup, if_pos hup]
            exact ih (some nm) reps
          · simp only [List.cons_append, gcaManagerLoop, hb]
            rw [if_neg hup, if_neg hup]
            exact ih m (reps ++ [nm])

/-- Inversion of a successful backend loop over a concatenation. -/
lemma gcaManagerLoop_ok_inv (xs ys : List Backend) (m : Option String)
    (reps : List String) (p : Option String × List String)
    (h : gcaManagerLoop (xs ++ ys) m reps = Except.ok p) :
    ∃ q, gcaManagerLoop xs m reps = Except.ok q ∧ gcaManagerLoop ys q.1 q.2 = Except.ok p := by
  rw [gcaManagerLoop_append] at h
  cases hq : gcaManagerLoop xs m reps with
  | error e => rw [hq] at h; cases h
  | ok q => rw [hq] at h; exact ⟨q, rfl, h⟩

/-- A stretch of the backend table without `'UP'` backends never changes
the `master` accumulator. -/
lemma gcaManagerLoop_master_of_noUp (ys : List Backend) :
    ∀ (m : Option String) (reps : List String) (p : Option String × List String),
      (∀ b2 ∈ ys, b2.status ≠ "UP") →
      gcaManagerLoop ys m reps = Except.ok p → p.1 = m := by
  induction ys with
  | nil =>
      intro m reps p _ h
      injection h with h2
      rw [← h2]
  | cons b rest ih =>
      intro m reps p hno h
      cases hb : backendAddr b with
      | none => simp only [gcaManagerLoop, hb] at h; cases h
      | some nm =>
          simp only [gcaManagerLoop, hb] at h
          rw [if_neg (hno b (List.mem_cons_self b rest))] at h
          exact ih m (reps ++ [nm]) p (fun b2 hb2 => hno b2 (List.mem_cons_of_mem b hb2)) h

/-- Every address in the `replicas` accumulator of a successful backend
loop comes from the initial accumulator or from a non-`'UP'` backend. -/
lemma gcaManagerLoop_reps_mem (ys : List Backend) :
    ∀ (m : Option String) (reps : List String) (p : Option String × List String) (x : String),
      gcaManagerLoop ys m reps = Except.ok p → x ∈ p.2 →
      x ∈ reps ∨ ∃ b2 ∈ ys, b2.status ≠ "UP" ∧ backendAddr b2 = some x := by
  induction ys with
  | nil =>
      intro m reps p x h hx
      injection h with h2
      rw [← h2] at hx
      exact Or.inl hx
  | cons b rest ih =>
      intro m reps p x h hx
      cases hb : backendAddr b with
      | none => simp only [gcaManagerLoop, hb] at h; cases h
      | some nm =>
          simp only [gcaManagerLoop, hb] at h
          by_cases hup : b.status = "UP"
          · rw [if_pos hup] at h
            rcases ih _ _ _ x h hx with h1 | ⟨b2, hb2, hprop⟩
            · exact Or.inl h1
            · exact Or.inr ⟨b2, List.mem_cons_of_mem b hb2, hprop⟩
          · rw [if_neg hup] at h
            rcases ih _ _ _ x h hx with h1 | ⟨b2, hb2, hprop⟩
            · rcases List.mem_append.mp h1 with h2 | h2
              · exact Or.inl h2
              · refine Or.inr ⟨b, List.mem_cons_self b rest, hup, ?_⟩
                rw [hb, List.mem_singleton.mp h2]
            · exact Or.inr ⟨b2, List.mem_cons_of_mem b hb2, hprop⟩

/-- Claim C10 counterexample: a backend table with two `'UP'` backends
carrying the same encoded address — the earlier `'UP'` backend's address
is exactly the returned primary, so it does not vanish from the
topology as the claim requires. -/
theorem proxy_drop_claim_counterexample :
    _get_cluster_addresses_manager
        [{ svname := ("postgresql_x_5432"), status := ("UP") },
         { svname := ("postgresql_x_5432"), status := ("UP") }] =
      Except.ok (some ("x"), []) ∧
    ({ svname := ("postgresql_x_5432"), status := ("UP") } : Backend).status = "UP" ∧
    backendAddr { svname := ("postgresql_x_5432"), status := ("UP") } = some ("x") := by
  exact ⟨rfl, rfl, rfl⟩

/-- Claim C10 as amended: in the proxy-observed strategy, provided the
addresses encoded in the backend names are pairwise distinct, resolution
returns the address of the last `'UP'` backend as primary, and the
address of every earlier `'UP'` backend appears in neither the returned
primary nor the returned replicas list. -/
theorem proxy_last_up_backend_wins (backends l1 l2 : List Backend) (b : Backend)
    (hsplit : backends = l1 ++ b :: l2)
    (hup : b.status = "UP")
    (hlast : ∀ b2 ∈ l2, b2.status ≠ "UP")
    (hnodup : (backends.map backendAddr).Nodup)
    (m : Option String) (reps : List String)
    (hok : _get_cluster_addresses_manager backends = Except.ok (m, reps))
    (b1 : Backend) (hb1 : b1 ∈ l1) (hb1up : b1.status = "UP")
    (n : String) (hb1addr : backendAddr b1 = some n) :
    m = backendAddr b ∧ m ≠ some n ∧ n ∉ reps := by
  subst hsplit
  unfold _get_cluster_addresses_manager at hok
  obtain ⟨q, hq1, hq2⟩ := gcaManagerLoop_ok_inv l1 (b :: l2) none [] (m, reps) hok
  obtain ⟨nb, hnb⟩ : ∃ nb, backendAddr b = some nb := by
    cases hb : backendAddr b with
    | none => simp only [gcaManagerLoop, hb] at hq2; cases hq2
    | some nb => exact ⟨nb, rfl⟩
  have hq2' : gcaManagerLoop l2 (some nb) q.2 = Except.ok (m, reps) := by
    simp only [gcaManagerLoop, hnb] at hq2
    rw [if_pos hup] at hq2
    exact hq2
  have hm : m = some nb :=
    gcaManagerLoop_master_of_noUp l2 (some nb) q.2 (m, reps) hlast hq2'
  have hbmem : backendAddr b1 ≠ backendAddr b := by
    rw [List.map_append] at hnodup
    have hdisj := (List.nodup_append.mp hnodup).2.2
    intro hcontra
    exact hdisj (List.mem_map_of_mem backendAddr hb1)
      (by rw [hcontra, List.map_cons]; exact List.mem_cons_self _ _)
  refine ⟨by rw [hm, hnb], ?_, ?_⟩
  · rw [hm]
    intro hcontra
    exact hbmem (by rw [hb1addr, hnb, ← hcontra])
  · intro hn
    rcases gcaManagerLoop_reps_mem (l1 ++ b :: l2) none [] (m, reps) n hok hn with
      h0 | ⟨b2, hb2mem, hb2up, hb2addr⟩
    · cases h0
    · have heqb : b2 = b1 :=
        List.inj_on_of_nodup_map hnodup hb2mem (List.mem_append_left _ hb1)
          (by rw [hb2addr, hb1addr])
      rw [heqb] at hb2up
      exact hb2up hb1up

/-- Witness for the amended C10: three backends with distinct addresses,
the first and last `'UP'`. -/
theorem proxy_last_up_backend_wins_witness :
    (some ("c") : Option String) =
      backendAddr { svname := ("postgresql_c_5432"), status := ("UP") } ∧
    (some ("c") : Option String) ≠ some ("a") ∧
    ("a") ∉ ([("b")] : List String) :=
  proxy_last_up_backend_wins
    [{ svname := ("postgresql_a_5432"), status := ("UP") },
     { svname := ("postgresql_b_5432"), status := ("DOWN") },
     { svname := ("postgresql_c_5432"), status := ("UP") }]
    [{ svname := ("postgresql_a_5432"), status := ("UP") },
     { svname := ("postgresql_b_5432"), status := ("DOWN") }]
    [] { svname := ("postgresql_c_5432"), status := ("UP") }
    (by rfl) (by rfl) (by decide) (by decide) (some ("c")) [("b")] (by rfl)
    { svname := ("postgresql_a_5432"), status := ("UP") } (by decide) (by rfl)
    ("a") (by rfl)

/-- The C4 primary: alive, log position 1000, timeline 1, etcd leader,
reporting one synchronous replica. -/
def exC4Master : Node := _get_node_status (some ("10.0.0.1"))
  (some (exRunning 1 1000 0 [{ client_addr := ("10.0.0.2"), sync_state := ("sync") }]))
  (some ("StateLeader")) false true

/-- The C4 synchronous replica, fully caught up (replayed 1000). -/
def exC4SyncReplica : Node := _get_node_status (some ("10.0.0.2"))
  (some (exRunning 1 0 1000 [])) (some ("StateFollower")) true false

/-- The C4 asynchronous replica: caught up on log position but on
timeline 2 while the primary is on timeline 1. -/
def exC4AsyncReplica : Node := _get_node_status (some ("10.0.0.3"))
  (some (exRunning 2 0 1000 [])) (some ("StateFollower")) false false

/-- Claim C4 counterexample: a cluster satisfying every condition of the
claim — primary alive, a synchronous replica reported and in sync,
exactly one consensus leader, followers at least the majority count and
at least the replica count — still evaluates to `DEGRADED`, because an
asynchronous replica on a different timeline raises the verdict. -/
theorem healthy_claim_counterexample :
    exC4Master.alive = true ∧
    _get_sync_replicas exC4Master.raw_status = [("10.0.0.2")] ∧
    exC4SyncReplica.state = "sync_replica" ∧
    py2LtOpt exC4SyncReplica.log_location (masterRawLog exC4Master) = false ∧
    etcdLeaders exC4Master [exC4SyncReplica, exC4AsyncReplica] = 1 ∧
    (1 + 2) / 2 ≤ etcdFollowers exC4Master [exC4SyncReplica, exC4AsyncReplica] ∧
    2 ≤ etcdFollowers exC4Master [exC4SyncReplica, exC4AsyncReplica] ∧
    (_determine_cluster_status [exC4Master, exC4SyncReplica, exC4AsyncReplica]).map Prod.fst =
      Except.ok DEGRADED ∧
    DEGRADED ≠ HEALTHY := by
  decide

/-- When every synchronous replica is caught up and every asynchronous
replica shares the primary's timeline and reports a log position, the
replica loop completes with status contribution `HEALTHY`. -/
lemma processReplicas_ok_zero (mlog mtl : Option ℕ) (a : ℕ) (hm : mlog = some a) :
    ∀ rs : List Node,
      (∀ r ∈ rs, r.state = "sync_replica" → ∃ x, r.log_location = some x ∧ a ≤ x) →
      (∀ r ∈ rs, r.state ≠ "sync_replica" →
        r.timeline = mtl ∧ ∃ x, r.log_location = some x) →
      ∃ rs1, processReplicas mlog mtl rs = Except.ok (HEALTHY, rs1) := by
  intro rs
  induction rs with
  | nil => intro _ _; exact ⟨[], rfl⟩
  | cons r rest ih =>
      intro h1 h2
      obtain ⟨rs1, hrs1⟩ := ih
        (fun x hx => h1 x (List.mem_cons_of_mem r hx))
        (fun x hx => h2 x (List.mem_cons_of_mem r hx))
      have hstep : ∃ r1, replicaStep mlog mtl r = Except.ok (HEALTHY, r1) := by
        by_cases hs : r.state = "sync_replica"
        · obtain ⟨x, hx, hax⟩ := h1 r (List.mem_cons_self r rest) hs
          refine ⟨extraMasterCheck r, ?_⟩
          unfold replicaStep
          rw [if_pos hs]
          rw [show syncCheck mlog r = (HEALTHY, r) from by
            unfold syncCheck
            rw [if_neg]
            rintro ⟨-, hlt⟩
            rw [hm, hx] at hlt
            simp only [py2LtOpt, decide_eq_true_eq] at hlt
            omega]
        · obtain ⟨htl, x, hx⟩ := h2 r (List.mem_cons_self r rest) hs
          unfold replicaStep
          rw [if_neg hs]
          rw [show timelineCheck mtl r = (HEALTHY, r) from by
            unfold timelineCheck
            rw [if_neg]
            rintro ⟨-, hne⟩
            exact hne htl]
          dsimp only
          unfold lagCheck
          rw [hm, hx]
          rw [show pySubOpt (some a) (some x) = Except.ok ((a : ℤ) - (x : ℤ)) from rfl]
          dsimp only
          by_cases hl : (2 : ℚ) < Rat.divInt ((a : ℤ) - (x : ℤ)) (1024 * 1024)
          · rw [if_pos hl]
            exact ⟨_, rfl⟩
          · rw [if_neg hl]
            exact ⟨extraMasterCheck r, rfl⟩
      obtain ⟨r1, hr1⟩ := hstep
      refine ⟨r1 :: rs1, ?_⟩
      simp [processReplicas, hr1, hrs1, HEALTHY]

/-- Claim C4 as amended: if the primary is resolved and alive with a
reported log position, at least one synchronous replica is reported,
every synchronous replica's log position is at least the primary's,
every asynchronous replica shares the primary's timeline and reports a
log position, and the consensus layer has exactly one leader with
followers at least the majority count and at least the replica count,
then the evaluated verdict is `HEALTHY`. -/
theorem healthy_when_every_check_passes (master : Node) (replicas : List Node) (a : ℕ)
    (hip : master.node_ip ≠ none)
    (halive : master.alive = true)
    (hsync : _get_sync_replicas master.raw_status ≠ [])
    (hmlog : masterRawLog master = some a)
    (hlead : etcdLeaders master replicas = 1)
    (hfoll1 : (1 + replicas.length) / 2 ≤ etcdFollowers master replicas)
    (hfoll2 : replicas.length ≤ etcdFollowers master replicas)
    (hsyncok : ∀ r ∈ replicas, r.state = "sync_replica" →
      ∃ x, r.log_location = some x ∧ a ≤ x)
    (hasyncok : ∀ r ∈ replicas, r.state ≠ "sync_replica" →
      r.timeline = masterRawTimeline master ∧ ∃ x, r.log_location = some x) :
    (_determine_cluster_status (master :: replicas)).map Prod.fst = Except.ok HEALTHY := by
  obtain ⟨rs1, hrs1⟩ := processReplicas_ok_zero (masterRawLog master)
    (masterRawTimeline master) a hmlog replicas hsyncok hasyncok
  have hinit : initialContribs master replicas =
      [HEALTHY, HEALTHY, HEALTHY, HEALTHY, HEALTHY] := by
    unfold initialContribs
    rw [if_neg hip]
    rw [if_neg (by simp [halive])]
    rw [if_neg hsync]
    rw [if_neg (by simp [hlead])]
    rw [if_neg (Nat.not_lt.mpr hfoll1)]
    rw [if_neg (Nat.not_lt.mpr hfoll2)]
  simp only [_determine_cluster_status, hrs1, hinit]
  simp [Except.map, HEALTHY]

/-- Witness for the amended C4 at a one-node cluster whose primary
satisfies every hypothesis. -/
theorem healthy_when_every_check_passes_witness :
    (_determine_cluster_status [exC4Master]).map Prod.fst = Except.ok HEALTHY :=
  healthy_when_every_check_passes exC4Master [] 1000
    (by decide) (by rfl) (by decide) (by rfl) (by decide) (by decide) (by decide)
    (by intro r hr; exact absurd hr (List.not_mem_nil r))
    (by intro r hr; exact absurd hr (List.not_mem_nil r))

end PgClusterModel
